import Mathlib

/-!
Verification of the user-space cron scheduler (`cronlib`) of the cronvex
repository, against its natural-language specification.

The embedding models the Convex runtime pieces the code touches:

* the `crons` table (`ctx.db.insert/get/patch/delete`, the `name` index) as an
  association list from numeric ids to `JobRecord`;
* the scheduler system table (`ctx.db.system.get`, `ctx.scheduler.runAt`,
  `ctx.scheduler.runAfter`, `ctx.scheduler.cancel`) as an association list
  from numeric task ids to `Task` values;
* thrown `Error(...)` values as the inductive `CronError`, with one
  constructor per distinct throw site family;
* the external collaborators (the `cron-parser` package and the clock) as
  function parameters: `cronValid` says whether `parser.parseExpression`
  accepts a cronspec, `nextDate` is `nextScheduledDate`'s underlying
  computation `interval.next()`, and `now` is the current wall-clock time in
  milliseconds, so that `runAfter ms` schedules at `now + ms`.

Functions keep the names of the source (`scheduleCron`, `rescheduler`, `del`,
`delByName`, `getByName`, `get`, `list`).
-/

namespace Cronvex

/-- State of a scheduled task in the Convex scheduler system table
(`schedulerJob.state.kind` in the source). -/
inductive TaskState
  | pending
  | inProgress
  | success
  | failed
  | canceled
  deriving Repr, DecidableEq, BEq

/-- What a scheduled task will run: either the cronlib `rescheduler` with a
`cronJobId` payload, or a target function (by name) with its args. -/
inductive TaskTarget
  | rescheduler (cronJobId : Nat)
  | func (functionName : String) (args : List (String × String))
  deriving Repr, DecidableEq, BEq

/-- A row of the scheduler system table: scheduled time, state and target. -/
structure Task where
  scheduledTime : Int
  state : TaskState
  target : TaskTarget
  deriving Repr, DecidableEq, BEq

/-- The two kinds of crons (`type Schedule` in the source). -/
inductive Schedule
  | interval (ms : Int)
  | cron (cronspec : String)
  deriving Repr, DecidableEq, BEq

/-- A row of the `crons` table. `schedulerJobId` is the spec's
`pendingTickTaskId`; `executionJobId` is the spec's `lastDispatchTaskId`. -/
structure JobRecord where
  functionName : String
  args : List (String × String)
  name : Option String
  schedule : Schedule
  schedulerJobId : Option Nat := none
  executionJobId : Option Nat := none
  deriving Repr, DecidableEq, BEq

/-- Errors thrown by cronlib, one constructor per throw-site family. -/
inductive CronError
  | duplicateName (name : String)
  | invalidInterval
  | invalidCronSpec (cronspec : String)
  | jobNotFound
  | notScheduled
  | scheduledTaskNotFound
  | badState (observed : TaskState)
  deriving Repr, DecidableEq, BEq

/-- The whole mutable state: the `crons` table and the scheduler system
table, with fresh-id counters for document and task ids. -/
structure World where
  crons : List (Nat × JobRecord)
  nextCronId : Nat
  tasks : List (Nat × Task)
  nextTaskId : Nat
  deriving Repr, DecidableEq, BEq

/-- Association-list lookup by key (first match wins, as a keyed index). -/
def lookupA {α : Type} (l : List (Nat × α)) (k : Nat) : Option α :=
  (l.find? fun p => p.1 == k).map (fun p => p.2)

/-- Rewrite every value of an association list, keyed access preserved. -/
def mapVals {α : Type} (l : List (Nat × α)) (f : Nat × α → α) :
    List (Nat × α) :=
  l.map fun p => (p.1, f p)

/-- `ctx.db.get` on the `crons` table. -/
def dbGet (w : World) (cronJobId : Nat) : Option JobRecord :=
  lookupA w.crons cronJobId

/-- `ctx.db.insert("crons", r)`: append the row under a fresh id. -/
def dbInsert (w : World) (r : JobRecord) : World × Nat :=
  ({ w with
      crons := w.crons ++ [(w.nextCronId, r)]
      nextCronId := w.nextCronId + 1 },
    w.nextCronId)

/-- `ctx.db.patch(cronJobId, \x7b schedulerJobId \x7d)`: update one field of
one row. -/
def dbPatchScheduler (w : World) (cronJobId : Nat) (sid : Nat) : World :=
  { w with
      crons := mapVals w.crons fun p =>
        if p.1 == cronJobId then { p.2 with schedulerJobId := some sid }
        else p.2 }

/-- `ctx.db.delete(cronJobId)`: remove the row. -/
def dbDelete (w : World) (cronJobId : Nat) : World :=
  { w with crons := w.crons.filter fun p => !(p.1 == cronJobId) }

/-- `ctx.db.system.get` on the scheduler system table. -/
def systemGet (w : World) (taskId : Nat) : Option Task :=
  lookupA w.tasks taskId

/-- `ctx.scheduler.runAt(time, target)` (and `runAfter(ms, target)` with
`time = now + ms`): create a pending task at the given time, returning its
fresh task id. -/
def scheduleTask (w : World) (time : Int) (tgt : TaskTarget) : World × Nat :=
  ({ w with
      tasks := w.tasks ++ [(w.nextTaskId, ⟨time, TaskState.pending, tgt⟩)]
      nextTaskId := w.nextTaskId + 1 },
    w.nextTaskId)

/-- `ctx.scheduler.cancel(taskId)`: a task that has not finished becomes
`canceled`; cancellation of a finished task is a no-op. Idempotent. -/
def cancelTask (w : World) (taskId : Nat) : World :=
  { w with
      tasks := mapVals w.tasks fun p =>
        if p.1 == taskId &&
            (p.2.state == TaskState.pending ||
              p.2.state == TaskState.inProgress) then
          { p.2 with state := TaskState.canceled }
        else p.2 }

/-- `list`: all rows of the `crons` table. -/
def list (w : World) : List (Nat × JobRecord) :=
  w.crons

/-- `get`: point lookup of a cron job by id. -/
def get (w : World) (cronJobId : Nat) : Option JobRecord :=
  dbGet w cronJobId

/-- `getByName`: unique index lookup on the `name` field. -/
def getByName (w : World) (name : String) : Option (Nat × JobRecord) :=
  w.crons.find? fun p => p.2.name == some name

/-- `parseArgs` from `common.ts` (not under the sources given): defaulting of
the optional args record to the empty record. -/
def parseArgs (args : Option (List (String × String))) :
    List (String × String) :=
  args.getD []

/-- `scheduleCron`: validation, insert, initial tick scheduling, patch.

`cronValid s` models `parser.parseExpression(s)` not throwing; `nextDate s t`
models `nextScheduledDate(new Date(t), s)`; `now` is the registration time,
so `ctx.scheduler.runAfter(ms, ...)` runs at `now + ms`.

The duplicate-name guard is the source's `if (name && (await getByName(ctx,
name)))`: an absent name or the (falsy) empty string skips the check. -/
def scheduleCron (cronValid : String → Bool) (nextDate : String → Int → Int)
    (now : Int) (w : World) (schedule : Schedule) (functionName : String)
    (name : Option String) (args : Option (List (String × String))) :
    Except CronError (World × Nat) :=
  let nameTruthy := match name with
    | some n => n != ""
    | none => false
  if nameTruthy && (getByName w (name.getD "")).isSome then
    Except.error (CronError.duplicateName (name.getD ""))
  else if (match schedule with
      | Schedule.interval ms => decide (ms < 1000)
      | Schedule.cron _ => false) then
    Except.error CronError.invalidInterval
  else if (match schedule with
      | Schedule.cron cronspec => !(cronValid cronspec)
      | Schedule.interval _ => false) then
    Except.error (CronError.invalidCronSpec
      (match schedule with
        | Schedule.cron cronspec => cronspec
        | Schedule.interval _ => ""))
  else
    let args := parseArgs args
    match schedule with
    | Schedule.interval ms =>
      let (w1, cronJobId) := dbInsert w
        { functionName := functionName, args := args, name := name
          schedule := Schedule.interval ms }
      let (w2, schedulerJobId) := scheduleTask w1 (now + ms)
        (TaskTarget.rescheduler cronJobId)
      Except.ok (dbPatchScheduler w2 cronJobId schedulerJobId, cronJobId)
    | Schedule.cron cronspec =>
      let (w1, cronJobId) := dbInsert w
        { functionName := functionName, args := args, name := name
          schedule := Schedule.cron cronspec }
      let (w2, schedulerJobId) := scheduleTask w1 (nextDate cronspec now)
        (TaskTarget.rescheduler cronJobId)
      Except.ok (dbPatchScheduler w2 cronJobId schedulerJobId, cronJobId)

/-- `rescheduler`: the per-tick state transition.

Mirrors the source exactly: load the record, integrity-check the task that is
running this tick (`pending` or `inProgress`, anything else throws), check
whether the previous execution job is still running, dispatch via
`runAfter(0, cronFunction, cronJob.args)` when it is not — the source
DISCARDS the task id this call returns — and re-arm the next tick, patching
only `schedulerJobId`. -/
def rescheduler (nextDate : String → Int → Int) (now : Int) (w : World)
    (cronJobId : Nat) : Except CronError World :=
  match dbGet w cronJobId with
  | none => Except.error CronError.jobNotFound
  | some cronJob =>
    match cronJob.schedulerJobId with
    | none => Except.error CronError.notScheduled
    | some schedulerJobId =>
      match systemGet w schedulerJobId with
      | none => Except.error CronError.scheduledTaskNotFound
      | some schedulerJob =>
        if schedulerJob.state != TaskState.pending &&
            schedulerJob.state != TaskState.inProgress then
          Except.error (CronError.badState schedulerJob.state)
        else
          let stillRunning := match cronJob.executionJobId with
            | some executionJobId =>
              match systemGet w executionJobId with
              | some executionJob =>
                executionJob.state == TaskState.pending ||
                  executionJob.state == TaskState.inProgress
              | none => false
            | none => false
          let w1 := if stillRunning then w
            else (scheduleTask w (now + 0)
              (TaskTarget.func cronJob.functionName cronJob.args)).1
          match cronJob.schedule with
          | Schedule.interval ms =>
            let nextTime := schedulerJob.scheduledTime + ms
            let (w2, nextSchedulerJobId) := scheduleTask w1 nextTime
              (TaskTarget.rescheduler cronJobId)
            Except.ok (dbPatchScheduler w2 cronJobId nextSchedulerJobId)
          | Schedule.cron cronspec =>
            let nextTime := nextDate cronspec schedulerJob.scheduledTime
            let (w2, nextSchedulerJobId) := scheduleTask w1 nextTime
              (TaskTarget.rescheduler cronJobId)
            Except.ok (dbPatchScheduler w2 cronJobId nextSchedulerJobId)

/-- `del`: throw if the record is absent or unscheduled, cancel the pending
tick, cancel the last execution job when present, delete the row. -/
def del (w : World) (cronJobId : Nat) : Except CronError World :=
  match dbGet w cronJobId with
  | none => Except.error CronError.jobNotFound
  | some cronJob =>
    match cronJob.schedulerJobId with
    | none => Except.error CronError.notScheduled
    | some schedulerJobId =>
      let w1 := cancelTask w schedulerJobId
      let w2 := match cronJob.executionJobId with
        | some executionJobId => cancelTask w1 executionJobId
        | none => w1
      Except.ok (dbDelete w2 cronJobId)

/-- `delByName`: resolve through the name index, then delegate to `del`. -/
def delByName (w : World) (name : String) : Except CronError World :=
  match getByName w name with
  | none => Except.error CronError.jobNotFound
  | some p => del w p.1

/-- The world with no cron jobs and no scheduled tasks. -/
def emptyWorld : World :=
  { crons := [], nextCronId := 0, tasks := [], nextTaskId := 0 }

/-! ### Observations used by the theorems -/

/-- Is this task a tick (an invocation of `rescheduler`) for job `j`? -/
def isTickFor (j : Nat) (t : Task) : Bool :=
  match t.target with
  | TaskTarget.rescheduler i => i == j
  | TaskTarget.func _ _ => false

/-- Is this task a dispatch of some target function? -/
def isDispatch (t : Task) : Bool :=
  match t.target with
  | TaskTarget.rescheduler _ => false
  | TaskTarget.func _ _ => true

/-- Number of tick tasks for job `j` in the scheduler table. -/
def countTicks (w : World) (j : Nat) : Nat :=
  w.tasks.countP fun p => isTickFor j p.2

/-- Number of target-function dispatch tasks in the scheduler table. -/
def countDispatches (w : World) : Nat :=
  w.tasks.countP fun p => isDispatch p.2

/-- The scheduled time of the currently armed tick of job `j`: follow the
record's `schedulerJobId` into the scheduler table. -/
def armedTickTime (w : World) (j : Nat) : Option Int :=
  match dbGet w j with
  | none => none
  | some r =>
    match r.schedulerJobId with
    | none => none
    | some sid => (systemGet w sid).map (fun t => t.scheduledTime)

/-- All task ids in the table are below the fresh-id counter (true of every
world the operations build from `emptyWorld`). -/
def TasksFresh (w : World) : Prop :=
  ∀ p ∈ w.tasks, p.1 < w.nextTaskId

/-- All cron ids in the table are below the fresh-id counter. -/
def CronsFresh (w : World) : Prop :=
  ∀ p ∈ w.crons, p.1 < w.nextCronId

/-- Did `scheduleCron` reject the call with a duplicate-name error? -/
def isDuplicateNameErr (r : Except CronError (World × Nat)) : Bool :=
  match r with
  | Except.error (CronError.duplicateName _) => true
  | _ => false

/-- The `stillRunning` flag computed by a tick: is there a previous execution
job that is `pending` or `inProgress`? -/
def stillRunningB (w : World) (r : JobRecord) : Bool :=
  match r.executionJobId with
  | some executionJobId =>
    match systemGet w executionJobId with
    | some executionJob =>
      executionJob.state == TaskState.pending ||
        executionJob.state == TaskState.inProgress
    | none => false
  | none => false

/-- The next fire time a tick computes from this tick's originally scheduled
time `T`: `T + ms` for interval schedules, `nextScheduledDate(T, spec)` for
cron schedules. -/
def nextTimeOf (nextDate : String → Int → Int) (sch : Schedule) (T : Int) :
    Int :=
  match sch with
  | Schedule.interval ms => T + ms
  | Schedule.cron cronspec => nextDate cronspec T

/-- The world a successful tick of job `j` produces, given the job record `r`
and this tick's own scheduler task `sj`: optionally dispatch the target
function, always arm one new tick, patch `schedulerJobId` to its id. -/
def tickResult (nextDate : String → Int → Int) (now : Int) (w : World)
    (j : Nat) (r : JobRecord) (sj : Task) : World :=
  let w1 := if stillRunningB w r then w
    else (scheduleTask w (now + 0)
      (TaskTarget.func r.functionName r.args)).1
  dbPatchScheduler
    (scheduleTask w1 (nextTimeOf nextDate r.schedule sj.scheduledTime)
      (TaskTarget.rescheduler j)).1
    j w1.nextTaskId

/-- Run `k` consecutive ticks of job `j`, the `i`-th with wall clock
`nows i`, stopping at the first error. -/
def runTicks (nextDate : String → Int → Int) (nows : Nat → Int) (j : Nat) :
    Nat → World → Except CronError World
  | 0, w => Except.ok w
  | Nat.succ k, w =>
    match rescheduler nextDate (nows k) w j with
    | Except.ok w1 => runTicks nextDate nows j k w1
    | Except.error e => Except.error e

/-- The duplicate-name validation condition of `scheduleCron`: a truthy
(present and non-empty) name for which a record already exists. -/
def dupCondB (w : World) (name : Option String) : Bool :=
  match name with
  | some n => (n != "") && (getByName w n).isSome
  | none => false

/-- The interval validation condition of `scheduleCron`: an interval below
1000 ms. -/
def invalidIntervalB (sch : Schedule) : Bool :=
  match sch with
  | Schedule.interval ms => decide (ms < 1000)
  | Schedule.cron _ => false

/-- The cron validation condition of `scheduleCron`: a cronspec the external
parser rejects. -/
def invalidCronB (cronValid : String → Bool) (sch : Schedule) : Bool :=
  match sch with
  | Schedule.cron cronspec => !(cronValid cronspec)
  | Schedule.interval _ => false

/-- The invariant maintained across the ticks of an interval job `j` with
period `M` whose armed tick is scheduled at time `T`: ids are fresh, the
record exists with the interval schedule, no recorded execution job, and its
`schedulerJobId` points at a pending task scheduled at `T`. -/
def IntervalInv (w : World) (j : Nat) (M T : Int) : Prop :=
  TasksFresh w ∧
  ∃ r sid, dbGet w j = some r ∧ r.schedule = Schedule.interval M ∧
    r.executionJobId = none ∧ r.schedulerJobId = some sid ∧
    ∃ tgt, systemGet w sid = some ⟨T, TaskState.pending, tgt⟩

/-! ### Concrete environments and worlds for witnesses -/

/-- A cron parser accepting every expression. -/
def cvAll : String → Bool := fun _ => true

/-- A concrete next-fire-time function for cron schedules. -/
def ndFix : String → Int → Int := fun _ t => t + 7

/-- Ticks all executing at wall-clock 0 (irrelevant to anchoring). -/
def nowsZero : Nat → Int := fun _ => 0

/-- The world after registering the interval job `"f"` with `ms = 1000` at
time 0 on the empty world. -/
def wReg : World :=
  { crons := [(0,
      { functionName := "f", args := [], name := none
        schedule := Schedule.interval 1000
        schedulerJobId := some 0, executionJobId := none })]
    nextCronId := 1
    tasks := [(0, ⟨1000, TaskState.pending, TaskTarget.rescheduler 0⟩)]
    nextTaskId := 1 }

/-- `wReg` after one tick at wall-clock 1000: the dispatch task (id 1) was
created but its id was NOT recorded — `executionJobId` is still `none`. -/
def wTicked : World :=
  { crons := [(0,
      { functionName := "f", args := [], name := none
        schedule := Schedule.interval 1000
        schedulerJobId := some 2, executionJobId := none })]
    nextCronId := 1
    tasks := [(0, ⟨1000, TaskState.pending, TaskTarget.rescheduler 0⟩),
      (1, ⟨1000, TaskState.pending, TaskTarget.func "f" []⟩),
      (2, ⟨2000, TaskState.pending, TaskTarget.rescheduler 0⟩)]
    nextTaskId := 3 }

/-- The job record of `wOverlap`: execution job 1 recorded. -/
def recOverlap : JobRecord :=
  { functionName := "f", args := [], name := none
    schedule := Schedule.interval 1000
    schedulerJobId := some 0, executionJobId := some 1 }

/-- The job record of `wUnscheduled`: no `schedulerJobId`. -/
def recUnscheduled : JobRecord :=
  { functionName := "f", args := [], name := none
    schedule := Schedule.interval 1000
    schedulerJobId := none, executionJobId := none }

/-- The job record of `wNamed`: named `"x"`. -/
def recNamed : JobRecord :=
  { functionName := "f", args := [], name := some "x"
    schedule := Schedule.interval 1000
    schedulerJobId := some 0, executionJobId := none }

/-- The job record of `wBadState` and `wReg`. -/
def recReg : JobRecord :=
  { functionName := "f", args := [], name := none
    schedule := Schedule.interval 1000
    schedulerJobId := some 0, executionJobId := none }

/-- The job record of `wMissingExec`: execution job 5 recorded. -/
def recMissingExec : JobRecord :=
  { functionName := "f", args := [], name := none
    schedule := Schedule.interval 1000
    schedulerJobId := some 0, executionJobId := some 5 }

/-- A world whose job 0 has a recorded execution job (task 1) that is still
in progress when the tick (task 0) fires. -/
def wOverlap : World :=
  { crons := [(0,
      { functionName := "f", args := [], name := none
        schedule := Schedule.interval 1000
        schedulerJobId := some 0, executionJobId := some 1 })]
    nextCronId := 1
    tasks := [(0, ⟨1000, TaskState.pending, TaskTarget.rescheduler 0⟩),
      (1, ⟨0, TaskState.inProgress, TaskTarget.func "f" []⟩)]
    nextTaskId := 2 }

/-- `wOverlap` after one tick at wall-clock 500: dispatch was skipped, a new
tick (task 2) was armed at 2000, `executionJobId` unchanged. -/
def wOverlapTicked : World :=
  { crons := [(0,
      { functionName := "f", args := [], name := none
        schedule := Schedule.interval 1000
        schedulerJobId := some 2, executionJobId := some 1 })]
    nextCronId := 1
    tasks := [(0, ⟨1000, TaskState.pending, TaskTarget.rescheduler 0⟩),
      (1, ⟨0, TaskState.inProgress, TaskTarget.func "f" []⟩),
      (2, ⟨2000, TaskState.pending, TaskTarget.rescheduler 0⟩)]
    nextTaskId := 3 }

/-- A world whose job 0 records an execution job id (5) that the scheduler
system table does not contain. -/
def wMissingExec : World :=
  { crons := [(0,
      { functionName := "f", args := [], name := none
        schedule := Schedule.interval 1000
        schedulerJobId := some 0, executionJobId := some 5 })]
    nextCronId := 1
    tasks := [(0, ⟨1000, TaskState.pending, TaskTarget.rescheduler 0⟩)]
    nextTaskId := 1 }

/-- `wMissingExec` after one tick at wall-clock 400: the missing execution
job is treated as finished, so the tick dispatches (task 1). -/
def wMissingExecTicked : World :=
  { crons := [(0,
      { functionName := "f", args := [], name := none
        schedule := Schedule.interval 1000
        schedulerJobId := some 2, executionJobId := some 5 })]
    nextCronId := 1
    tasks := [(0, ⟨1000, TaskState.pending, TaskTarget.rescheduler 0⟩),
      (1, ⟨400, TaskState.pending, TaskTarget.func "f" []⟩),
      (2, ⟨2000, TaskState.pending, TaskTarget.rescheduler 0⟩)]
    nextTaskId := 3 }

/-- A world whose job 0 points at a tick task that is already in the
`success` state — an integrity violation at tick entry. -/
def wBadState : World :=
  { crons := [(0,
      { functionName := "f", args := [], name := none
        schedule := Schedule.interval 1000
        schedulerJobId := some 0, executionJobId := none })]
    nextCronId := 1
    tasks := [(0, ⟨1000, TaskState.success, TaskTarget.rescheduler 0⟩)]
    nextTaskId := 1 }

/-- A world whose job 0 has no `schedulerJobId` (never scheduled). -/
def wUnscheduled : World :=
  { crons := [(0,
      { functionName := "f", args := [], name := none
        schedule := Schedule.interval 1000
        schedulerJobId := none, executionJobId := none })]
    nextCronId := 1
    tasks := []
    nextTaskId := 0 }

/-- A world with a job named `"x"`. -/
def wNamed : World :=
  { crons := [(0,
      { functionName := "f", args := [], name := some "x"
        schedule := Schedule.interval 1000
        schedulerJobId := some 0, executionJobId := none })]
    nextCronId := 1
    tasks := [(0, ⟨1000, TaskState.pending, TaskTarget.rescheduler 0⟩)]
    nextTaskId := 1 }

/-- A world with a job whose `name` is the empty string. -/
def wEmptyName : World :=
  { crons := [(0,
      { functionName := "f", args := [], name := some ""
        schedule := Schedule.interval 1000
        schedulerJobId := some 0, executionJobId := none })]
    nextCronId := 1
    tasks := [(0, ⟨1000, TaskState.pending, TaskTarget.rescheduler 0⟩)]
    nextTaskId := 1 }

/-- `wEmptyName` after a second successful registration with name `""`:
both records carry the empty-string name. -/
def wTwoEmptyNames : World :=
  { crons := [(0,
      { functionName := "f", args := [], name := some ""
        schedule := Schedule.interval 1000
        schedulerJobId := some 0, executionJobId := none }),
      (1,
      { functionName := "g", args := [], name := some ""
        schedule := Schedule.interval 1000
        schedulerJobId := some 1, executionJobId := none })]
    nextCronId := 2
    tasks := [(0, ⟨1000, TaskState.pending, TaskTarget.rescheduler 0⟩),
      (1, ⟨1000, TaskState.pending, TaskTarget.rescheduler 1⟩)]
    nextTaskId := 2 }

/-! ### Association-list lemmas -/

theorem lookupA_nil {α : Type} (k : Nat) : lookupA ([] : List (Nat × α)) k = none := rfl

theorem lookupA_cons {α : Type} (p : Nat × α) (l : List (Nat × α)) (k : Nat) :
    lookupA (p :: l) k = if p.1 == k then some p.2 else lookupA l k := by
  simp only [lookupA, List.find?]
  cases h : (p.1 == k) <;> simp [h]

theorem lookupA_append {α : Type} (l₁ l₂ : List (Nat × α)) (k : Nat) :
    lookupA (l₁ ++ l₂) k =
      match lookupA l₁ k with
      | some v => some v
      | none => lookupA l₂ k := by
  induction l₁ with
  | nil => simp [lookupA_nil]
  | cons p l ih =>
    rw [List.cons_append, lookupA_cons, lookupA_cons]
    cases h : (p.1 == k) <;> simp [h, ih]

theorem lookupA_eq_none_of_forall {α : Type} (l : List (Nat × α)) (k : Nat)
    (h : ∀ p ∈ l, p.1 ≠ k) : lookupA l k = none := by
  induction l with
  | nil => rfl
  | cons p l ih =>
    rw [lookupA_cons]
    have hp : p.1 ≠ k := h p (List.mem_cons_self p l)
    simp only [beq_iff_eq, hp, if_false]
    exact ih fun q hq => h q (List.mem_cons_of_mem p hq)

theorem lookupA_singleton {α : Type} (n : Nat) (v : α) (k : Nat) :
    lookupA [(n, v)] k = if n == k then some v else none := by
  rw [lookupA_cons]; rfl

theorem lookupA_mapVals {α : Type} (l : List (Nat × α)) (f : Nat × α → α)
    (k : Nat) :
    lookupA (mapVals l f) k = (l.find? fun p => p.1 == k).map f := by
  simp only [mapVals]
  induction l with
  | nil => rfl
  | cons p l ih =>
    simp only [List.map_cons, lookupA_cons, List.find?]
    cases h : (p.1 == k) <;> simp [h, ih]

theorem find?_key {α : Type} (l : List (Nat × α)) (k : Nat) (p : Nat × α)
    (h : l.find? (fun q => q.1 == k) = some p) : p.1 = k := by
  have := List.find?_some h
  simpa using this

theorem lookupA_eq_find? {α : Type} (l : List (Nat × α)) (k : Nat) :
    lookupA l k = (l.find? fun p => p.1 == k).map (fun p => p.2) := rfl

theorem lookupA_filter_ne {α : Type} (l : List (Nat × α)) (i k : Nat)
    (hk : k ≠ i) :
    lookupA (l.filter fun p => !(p.1 == i)) k = lookupA l k := by
  induction l with
  | nil => rfl
  | cons p l ih =>
    by_cases hp : p.1 = i
    · have h1 : (!(p.1 == i)) = false := by simp [hp]
      have h2 : (p.1 == k) = false := by
        rw [hp]
        simp only [beq_eq_false_iff_ne, ne_eq]
        omega
      rw [List.filter_cons, h1, lookupA_cons, h2]
      simpa using ih
    · have h1 : (!(p.1 == i)) = true := by simp [hp]
      rw [List.filter_cons, h1]
      simp only [if_true]
      rw [lookupA_cons, lookupA_cons, ih]

theorem lookupA_filter_self {α : Type} (l : List (Nat × α)) (i : Nat) :
    lookupA (l.filter fun p => !(p.1 == i)) i = none := by
  apply lookupA_eq_none_of_forall
  intro p hp
  have := (List.mem_filter.mp hp).2
  simp only [Bool.not_eq_true', beq_eq_false_iff_ne, ne_eq] at this
  exact this

/-! ### Pointwise behavior of the store operations -/

theorem dbGet_patch (w : World) (i s k : Nat) :
    dbGet (dbPatchScheduler w i s) k =
      if k = i then
        (dbGet w k).map fun r => { r with schedulerJobId := some s }
      else dbGet w k := by
  show lookupA (mapVals w.crons _) k = _
  rw [lookupA_mapVals]
  rw [dbGet, lookupA_eq_find?]
  cases hf : w.crons.find? (fun p => p.1 == k) with
  | none => simp
  | some p =>
    have hk := find?_key _ _ _ hf
    by_cases hki : k = i
    · subst hki
      have hc : (p.1 == k) = true := by simp [hk]
      simp [hc, hk]
    · have hc : (p.1 == i) = false := by
        rw [hk]
        simp only [beq_eq_false_iff_ne, ne_eq]
        exact hki
      simp [hc, hki, hk]

theorem systemGet_cancel (w : World) (i k : Nat) :
    systemGet (cancelTask w i) k =
      if k = i then
        (systemGet w k).map fun t =>
          if t.state == TaskState.pending ||
              t.state == TaskState.inProgress then
            { t with state := TaskState.canceled }
          else t
      else systemGet w k := by
  show lookupA (mapVals w.tasks _) k = _
  rw [lookupA_mapVals]
  rw [systemGet, lookupA_eq_find?]
  cases hf : w.tasks.find? (fun p => p.1 == k) with
  | none => simp
  | some p =>
    have hk := find?_key _ _ _ hf
    by_cases hki : k = i
    · subst hki
      have hc : (p.1 == k) = true := by simp [hk]
      simp [hc, hk]
    · have hc : (p.1 == i) = false := by
        rw [hk]
        simp only [beq_eq_false_iff_ne, ne_eq]
        exact hki
      simp [hc, hki, hk]

theorem systemGet_scheduleTask (w : World) (time : Int) (tgt : TaskTarget)
    (k : Nat) :
    systemGet (scheduleTask w time tgt).1 k =
      match systemGet w k with
      | some t => some t
      | none =>
        if w.nextTaskId == k then some ⟨time, TaskState.pending, tgt⟩
        else none := by
  show lookupA (w.tasks ++ [(w.nextTaskId, _)]) k = _
  rw [lookupA_append, lookupA_singleton]
  simp only [systemGet]
  cases lookupA w.tasks k <;> rfl

theorem systemGet_fresh (w : World) (h : TasksFresh w) :
    systemGet w w.nextTaskId = none := by
  apply lookupA_eq_none_of_forall
  intro p hp
  have := h p hp
  omega

theorem dbGet_fresh (w : World) (h : CronsFresh w) :
    dbGet w w.nextCronId = none := by
  apply lookupA_eq_none_of_forall
  intro p hp
  have := h p hp
  omega

theorem dbGet_scheduleTask (w : World) (time : Int) (tgt : TaskTarget)
    (k : Nat) : dbGet (scheduleTask w time tgt).1 k = dbGet w k := rfl

theorem systemGet_patch (w : World) (i s k : Nat) :
    systemGet (dbPatchScheduler w i s) k = systemGet w k := rfl

theorem systemGet_delete (w : World) (i k : Nat) :
    systemGet (dbDelete w i) k = systemGet w k := rfl

theorem dbGet_cancel (w : World) (i k : Nat) :
    dbGet (cancelTask w i) k = dbGet w k := rfl

theorem dbGet_delete_self (w : World) (i : Nat) :
    dbGet (dbDelete w i) i = none :=
  lookupA_filter_self w.crons i

theorem dbGet_delete_ne (w : World) (i k : Nat) (h : k ≠ i) :
    dbGet (dbDelete w i) k = dbGet w k :=
  lookupA_filter_ne w.crons i k h

/-! ### Counting and freshness lemmas -/

theorem countDispatches_schedule_tick (w : World) (time : Int) (j : Nat) :
    countDispatches (scheduleTask w time (TaskTarget.rescheduler j)).1 =
      countDispatches w := by
  simp [countDispatches, scheduleTask, List.countP_append, List.countP_cons,
    isDispatch]

theorem countDispatches_schedule_func (w : World) (time : Int) (fn : String)
    (args : List (String × String)) :
    countDispatches (scheduleTask w time (TaskTarget.func fn args)).1 =
      countDispatches w + 1 := by
  simp [countDispatches, scheduleTask, List.countP_append, List.countP_cons,
    isDispatch]

theorem countTicks_schedule_func (w : World) (time : Int) (fn : String)
    (args : List (String × String)) (j : Nat) :
    countTicks (scheduleTask w time (TaskTarget.func fn args)).1 j =
      countTicks w j := by
  simp [countTicks, scheduleTask, List.countP_append, List.countP_cons,
    isTickFor]

theorem countTicks_schedule_tick_self (w : World) (time : Int) (j : Nat) :
    countTicks (scheduleTask w time (TaskTarget.rescheduler j)).1 j =
      countTicks w j + 1 := by
  simp [countTicks, scheduleTask, List.countP_append, List.countP_cons,
    isTickFor]

theorem countDispatches_patch (w : World) (i s : Nat) :
    countDispatches (dbPatchScheduler w i s) = countDispatches w := rfl

theorem countTicks_patch (w : World) (i s j : Nat) :
    countTicks (dbPatchScheduler w i s) j = countTicks w j := rfl

theorem tasksFresh_scheduleTask (w : World) (time : Int) (tgt : TaskTarget)
    (h : TasksFresh w) : TasksFresh (scheduleTask w time tgt).1 := by
  intro p hp
  rcases List.mem_append.mp hp with h1 | h1
  · have := h p h1
    simp only [scheduleTask]
    omega
  · simp only [List.mem_singleton] at h1
    subst h1
    simp only [scheduleTask]
    omega

theorem systemGet_fresh_ge (w : World) (m : Nat) (h : TasksFresh w)
    (hm : w.nextTaskId ≤ m) : systemGet w m = none := by
  apply lookupA_eq_none_of_forall
  intro p hp
  have := h p hp
  omega

theorem dbGet_insert_self (w : World) (r : JobRecord)
    (hcf : CronsFresh w) :
    dbGet (dbInsert w r).1 (dbInsert w r).2 = some r := by
  show lookupA (w.crons ++ [(w.nextCronId, r)]) w.nextCronId = some r
  rw [lookupA_append]
  have hnone : lookupA w.crons w.nextCronId = none := dbGet_fresh w hcf
  rw [hnone, lookupA_singleton]
  simp

theorem systemGet_schedule_self (w : World) (time : Int) (tgt : TaskTarget)
    (htf : TasksFresh w) :
    systemGet (scheduleTask w time tgt).1 w.nextTaskId
      = some ⟨time, TaskState.pending, tgt⟩ := by
  rw [systemGet_scheduleTask, systemGet_fresh w htf]
  simp

theorem cancel_state_canceled (w : World) (i : Nat) (t : Task)
    (ht : systemGet w i = some t)
    (hstate : t.state = TaskState.pending ∨
      t.state = TaskState.inProgress) :
    systemGet (cancelTask w i) i
      = some { t with state := TaskState.canceled } := by
  rw [systemGet_cancel, if_pos rfl, ht]
  rcases hstate with h | h
  · simp [h]
    intro hcontra
    exact absurd hcontra (by decide)
  · simp [h]
    intro h1 hcontra
    exact absurd hcontra (by decide)

theorem cancel_other (w : World) (i k : Nat) (h : k ≠ i) :
    systemGet (cancelTask w i) k = systemGet w k := by
  rw [systemGet_cancel]
  simp [h]

/-! ### The shape of a successful tick -/

theorem rescheduler_ok_shape (nd : String → Int → Int) (now : Int)
    (w : World) (j : Nat) (r : JobRecord) (sid : Nat) (sj : Task)
    (h1 : dbGet w j = some r) (h2 : r.schedulerJobId = some sid)
    (h3 : systemGet w sid = some sj)
    (h4 : sj.state = TaskState.pending ∨
      sj.state = TaskState.inProgress) :
    rescheduler nd now w j = Except.ok (tickResult nd now w j r sj) := by
  have hc : (sj.state != TaskState.pending &&
      sj.state != TaskState.inProgress) = false := by
    rcases h4 with h | h <;> rw [h] <;> decide
  simp only [rescheduler, h1, h2, h3, hc, Bool.false_eq_true, if_false,
    tickResult, stillRunningB, nextTimeOf]
  cases hsch : r.schedule <;> rfl

theorem rescheduler_ok_inv (nd : String → Int → Int) (now : Int)
    (w w' : World) (j : Nat)
    (hrun : rescheduler nd now w j = Except.ok w') :
    ∃ r sid sj, dbGet w j = some r ∧ r.schedulerJobId = some sid ∧
      systemGet w sid = some sj ∧
      (sj.state = TaskState.pending ∨
        sj.state = TaskState.inProgress) ∧
      w' = tickResult nd now w j r sj := by
  cases hg : dbGet w j with
  | none => simp [rescheduler, hg] at hrun
  | some r =>
    cases hs : r.schedulerJobId with
    | none => simp [rescheduler, hg, hs] at hrun
    | some sid =>
      cases ht : systemGet w sid with
      | none => simp [rescheduler, hg, hs, ht] at hrun
      | some sj =>
        cases hb : (sj.state != TaskState.pending &&
            sj.state != TaskState.inProgress) with
        | true => simp [rescheduler, hg, hs, ht, hb] at hrun
        | false =>
          have h4 : sj.state = TaskState.pending ∨
              sj.state = TaskState.inProgress := by
            cases hstate : sj.state with
            | pending => exact Or.inl rfl
            | inProgress => exact Or.inr rfl
            | success => rw [hstate] at hb; exact absurd hb (by decide)
            | failed => rw [hstate] at hb; exact absurd hb (by decide)
            | canceled => rw [hstate] at hb; exact absurd hb (by decide)
          rw [rescheduler_ok_shape nd now w j r sid sj hg hs ht h4] at hrun
          exact ⟨r, sid, sj, rfl, hs, ht, h4,
            (Except.ok.inj hrun).symm⟩

/-! ### Interval anchoring: invariant lemmas -/

theorem scheduleCron_interval_inv (cv : String → Bool)
    (nd : String → Int → Int) (t0 M : Int) (w : World) (fn : String)
    (nm : Option String) (args : Option (List (String × String)))
    (w0 : World) (j : Nat)
    (hcf : CronsFresh w) (htf : TasksFresh w)
    (hreg : scheduleCron cv nd t0 w (Schedule.interval M) fn nm args
      = Except.ok (w0, j)) :
    IntervalInv w0 j M (t0 + M) := by
  simp only [scheduleCron] at hreg
  split at hreg
  · exact absurd hreg (by simp)
  · split at hreg
    · exact absurd hreg (by simp)
    · split at hreg
      · exact absurd hreg (by simp)
      · have hpair := Except.ok.inj hreg
        have hw0 := congrArg Prod.fst hpair
        have hj := congrArg Prod.snd hpair
        simp only at hw0 hj
        subst hw0
        subst hj
        refine ⟨?_,
          { functionName := fn, args := parseArgs args, name := nm
            schedule := Schedule.interval M
            schedulerJobId := some w.nextTaskId, executionJobId := none },
          w.nextTaskId, ?_, rfl, rfl, rfl, TaskTarget.rescheduler
            (dbInsert w
              { functionName := fn, args := parseArgs args, name := nm
                schedule := Schedule.interval M }).2, ?_⟩
        · exact tasksFresh_scheduleTask _ _ _ htf
        · rw [dbGet_patch]
          simp [dbGet_scheduleTask,
            dbGet_insert_self w _ hcf]
          rfl
        · exact systemGet_schedule_self _ _ _ htf

theorem interval_step (nd : String → Int → Int) (now : Int) (w : World)
    (j : Nat) (M T : Int) (h : IntervalInv w j M T) :
    ∃ w', rescheduler nd now w j = Except.ok w'
      ∧ IntervalInv w' j M (T + M) := by
  obtain ⟨htf, r, sid, hg, hsch, hexec, hs, tgt, ht⟩ := h
  have hrun := rescheduler_ok_shape nd now w j r sid
    ⟨T, TaskState.pending, tgt⟩ hg hs ht (Or.inl rfl)
  refine ⟨_, hrun, ?_⟩
  have hsr : stillRunningB w r = false := by
    simp [stillRunningB, hexec]
  simp only [tickResult, hsr, Bool.false_eq_true, if_false, nextTimeOf,
    hsch]
  set n := (scheduleTask w (now + 0)
    (TaskTarget.func r.functionName r.args)).1.nextTaskId with hn
  refine ⟨?_, { r with schedulerJobId := some n }, n,
    ?_, hsch, hexec, rfl, TaskTarget.rescheduler j, ?_⟩
  · exact tasksFresh_scheduleTask _ _ _ (tasksFresh_scheduleTask _ _ _ htf)
  · rw [dbGet_patch]
    simp [dbGet_scheduleTask, hg]
  · exact systemGet_schedule_self _ _ _ (tasksFresh_scheduleTask _ _ _ htf)

theorem interval_iterate (nd : String → Int → Int) (nows : Nat → Int)
    (j : Nat) (M : Int) :
    ∀ (k : Nat) (w : World) (T : Int), IntervalInv w j M T →
    ∃ w', runTicks nd nows j k w = Except.ok w'
      ∧ IntervalInv w' j M (T + (k : Int) * M) := by
  intro k
  induction k with
  | zero =>
    intro w T h
    exact ⟨w, rfl, by simpa using h⟩
  | succ k ih =>
    intro w T h
    obtain ⟨w1, hrun, h1⟩ := interval_step nd (nows k) w j M T h
    obtain ⟨w', hrun', h'⟩ := ih w1 (T + M) h1
    refine ⟨w', ?_, ?_⟩
    · simp only [runTicks, hrun, hrun']
    · have harith : T + M + (k : Int) * M
          = T + ((Nat.succ k : Nat) : Int) * M := by
        push_cast
        ring
      exact harith ▸ h'

/-! ### The claims -/

/-- C1. The claim says a dispatching tick stores the task handle returned by
the zero-delay scheduling call as the record's new `lastDispatchTaskId` and
patches it together with `pendingTickTaskId`. The code contradicts this: on
the tick of `wReg` at wall clock 1000 the target function IS dispatched
immediately with the job's args (task 1 below), but the returned handle is
discarded and the patch writes only `schedulerJobId`, so `executionJobId`
is still `none` afterwards — even though the code's own overlap check and
`del` read that field. -/
theorem rescheduler_discards_dispatch_handle :
    rescheduler ndFix 1000 wReg 0 = Except.ok wTicked
  ∧ systemGet wTicked 1
      = some ⟨1000 + 0, TaskState.pending, TaskTarget.func "f" []⟩
  ∧ countDispatches wTicked = countDispatches wReg + 1
  ∧ (dbGet wTicked 0).map (fun r => r.executionJobId) = some none :=
  ⟨rfl, rfl, rfl, rfl⟩

/-- C2. If the record's `executionJobId` (`lastDispatchTaskId`) is set and
its queried status is `pending` or `inProgress` (running), a completing tick
dispatches nothing new and leaves `executionJobId` unchanged. -/
theorem overlap_suppression_skips_dispatch (nd : String → Int → Int)
    (now : Int) (w w' : World) (j e : Nat) (r : JobRecord) (t : Task)
    (h1 : dbGet w j = some r) (h2 : r.executionJobId = some e)
    (h3 : systemGet w e = some t)
    (h4 : t.state = TaskState.pending ∨ t.state = TaskState.inProgress)
    (hrun : rescheduler nd now w j = Except.ok w') :
    countDispatches w' = countDispatches w ∧
    (dbGet w' j).map (fun u => u.executionJobId) = some (some e) := by
  obtain ⟨r0, sid, sj, hg, hs, ht, hstate, hw'⟩ :=
    rescheduler_ok_inv nd now w w' j hrun
  have hr : r0 = r := by
    have := h1.symm.trans hg
    exact (Option.some.inj this).symm
  subst hr
  have hstill : stillRunningB w r0 = true := by
    simp only [stillRunningB, h2, h3]
    rcases h4 with h | h <;> rw [h] <;> rfl
  simp only [tickResult, hstill, if_true] at hw'
  subst hw'
  constructor
  · rw [countDispatches_patch, countDispatches_schedule_tick]
  · rw [dbGet_patch]
    simp [dbGet_scheduleTask, h1, h2]

/-- C2 witness: the tick of `wOverlap` (execution job 1 in progress) skips
dispatch and leaves `executionJobId = some 1`. -/
theorem overlap_suppression_skips_dispatch_witness :
    countDispatches wOverlapTicked = countDispatches wOverlap ∧
    (dbGet wOverlapTicked 0).map (fun u => u.executionJobId)
      = some (some 1) :=
  overlap_suppression_skips_dispatch ndFix 500 wOverlap wOverlapTicked 0 1
    recOverlap ⟨0, TaskState.inProgress, TaskTarget.func "f" []⟩
    rfl rfl rfl (Or.inr rfl) rfl

/-- C3. For an interval job with period `M` registered at time `t0`, the
`k`-th tick is scheduled at exactly `t0 + k*M`: registration arms the first
tick at `t0 + M`, and every tick arms the next at this tick's originally
scheduled time plus `M`, independently of the wall-clock times `nows` at
which the ticks actually execute. -/
theorem interval_ticks_no_drift (cv : String → Bool)
    (nd : String → Int → Int) (nows : Nat → Int) (w : World) (t0 M : Int)
    (fn : String) (nm : Option String)
    (args : Option (List (String × String))) (w0 : World) (j k : Nat)
    (hcf : CronsFresh w) (htf : TasksFresh w)
    (hreg : scheduleCron cv nd t0 w (Schedule.interval M) fn nm args
      = Except.ok (w0, j))
    (hk : 1 ≤ k) :
    ∃ w', runTicks nd nows j (k - 1) w0 = Except.ok w'
      ∧ armedTickTime w' j = some (t0 + (k : Int) * M) := by
  have hinv := scheduleCron_interval_inv cv nd t0 M w fn nm args w0 j
    hcf htf hreg
  obtain ⟨w', hrun, hinv'⟩ := interval_iterate nd nows j M (k - 1) w0
    (t0 + M) hinv
  refine ⟨w', hrun, ?_⟩
  obtain ⟨_, r, sid, hg, _, _, hs, tgt, ht⟩ := hinv'
  simp only [armedTickTime, hg, hs, ht]
  have hcast : ((k - 1 : Nat) : Int) = (k : Int) - 1 := by omega
  rw [hcast]
  have harith : t0 + M + ((k : Int) - 1) * M = t0 + (k : Int) * M := by
    ring
  rw [harith]
  rfl

/-- C3 witness: job registered at `t0 = 0` with `M = 1000`; the second tick
(after running one tick) is armed at exactly `0 + 2*1000`. -/
theorem interval_ticks_no_drift_witness :
    ∃ w', runTicks ndFix nowsZero 0 (2 - 1) wReg = Except.ok w'
      ∧ armedTickTime w' 0 = some ((0 : Int) + ((2 : Nat) : Int) * 1000) :=
  interval_ticks_no_drift cvAll ndFix nowsZero emptyWorld 0 1000 "f" none
    none wReg 0 2 (fun p hp => nomatch hp) (fun p hp => nomatch hp) rfl
    (by omega)

/-- C4 counterexample to the claim as stated: the name `""` IS given and a
record with that name DOES exist in `wEmptyName`, yet registration succeeds
instead of raising `DuplicateName`, because the code's guard
`if (name && ...)` treats the empty string as falsy. -/
theorem emptyName_duplicate_not_raised :
    (getByName wEmptyName "").isSome = true
  ∧ scheduleCron cvAll ndFix 0 wEmptyName (Schedule.interval 1000) "g"
      (some "") none = Except.ok (wTwoEmptyNames, 1) :=
  ⟨rfl, rfl⟩

/-- C4 (amended). `register` raises exactly in three validation cases, in
this order: `DuplicateName` when a non-empty name is given and a record with
that name exists (an empty-string name skips the check), `InvalidInterval`
when the schedule is an interval with `ms < 1000` (so `ms = 1000` passes),
and `InvalidCronSpec` when the schedule is a cron expression the external
parser rejects; otherwise registration succeeds. -/
theorem register_validation_cases (cv : String → Bool)
    (nd : String → Int → Int) (now : Int) (w : World) (sch : Schedule)
    (fn : String) (name : Option String)
    (args : Option (List (String × String))) :
    ((∃ s, scheduleCron cv nd now w sch fn name args
        = Except.error (CronError.duplicateName s)) ↔
      dupCondB w name = true)
  ∧ (scheduleCron cv nd now w sch fn name args
        = Except.error CronError.invalidInterval ↔
      (dupCondB w name = false ∧ invalidIntervalB sch = true))
  ∧ ((∃ s, scheduleCron cv nd now w sch fn name args
        = Except.error (CronError.invalidCronSpec s)) ↔
      (dupCondB w name = false ∧ invalidIntervalB sch = false ∧
        invalidCronB cv sch = true))
  ∧ ((∃ p, scheduleCron cv nd now w sch fn name args = Except.ok p) ↔
      (dupCondB w name = false ∧ invalidIntervalB sch = false ∧
        invalidCronB cv sch = false)) := by
  cases name <;> cases sch <;>
    simp only [scheduleCron, dupCondB, invalidIntervalB, invalidCronB,
      Option.getD] <;>
    split_ifs <;>
    simp_all

/-- C4 witness: with all three conditions false (no name, interval of
exactly 1000 ms) registration succeeds. -/
theorem register_validation_cases_witness :
    ∃ p, scheduleCron cvAll ndFix 0 emptyWorld (Schedule.interval 1000)
      "f" none none = Except.ok p :=
  (register_validation_cases cvAll ndFix 0 emptyWorld
    (Schedule.interval 1000) "f" none none).2.2.2.mpr ⟨rfl, rfl, rfl⟩

/-- C5. On a record with a pending tick task, `del` succeeds, the record is
gone from `get`, the pending tick task ends up canceled, and the recorded
execution job (when present and unfinished) ends up canceled too. -/
theorem del_cancels_and_deletes (w : World) (j : Nat) (r : JobRecord)
    (sid : Nat)
    (h1 : dbGet w j = some r) (h2 : r.schedulerJobId = some sid) :
    ∃ w', del w j = Except.ok w'
    ∧ get w' j = none
    ∧ (∀ t, systemGet w sid = some t →
        (t.state = TaskState.pending ∨ t.state = TaskState.inProgress) →
        (systemGet w' sid).map (fun u => u.state)
          = some TaskState.canceled)
    ∧ (∀ e t, r.executionJobId = some e → systemGet w e = some t →
        (t.state = TaskState.pending ∨ t.state = TaskState.inProgress) →
        (systemGet w' e).map (fun u => u.state)
          = some TaskState.canceled) := by
  refine ⟨dbDelete
      (match r.executionJobId with
        | some e => cancelTask (cancelTask w sid) e
        | none => cancelTask w sid) j, ?_, ?_, ?_, ?_⟩
  · simp only [del, h1, h2]
  · exact dbGet_delete_self _ j
  · intro t ht hstate
    rw [systemGet_delete]
    have hc1 := cancel_state_canceled w sid t ht hstate
    cases hexec : r.executionJobId with
    | none => simp [hc1]
    | some e =>
      by_cases hse : e = sid
      · subst hse
        rw [systemGet_cancel, if_pos rfl, hc1]
        rfl
      · rw [cancel_other _ e sid (fun h => hse h.symm), hc1]
        rfl
  · intro e t hexec ht hstate
    rw [systemGet_delete]
    simp only [hexec]
    by_cases hse : e = sid
    · subst hse
      have hc1 := cancel_state_canceled w e t ht hstate
      rw [systemGet_cancel, if_pos rfl, hc1]
      rfl
    · have hmid : systemGet (cancelTask w sid) e = some t :=
        (cancel_other w sid e hse).trans ht
      rw [cancel_state_canceled _ e t hmid hstate]
      rfl

/-- C5 witness: deleting job 0 of `wOverlap` cancels tick task 0 and
execution task 1 and removes the record. -/
theorem del_cancels_and_deletes_witness :
    ∃ w', del wOverlap 0 = Except.ok w'
    ∧ get w' 0 = none
    ∧ (∀ t, systemGet wOverlap 0 = some t →
        (t.state = TaskState.pending ∨ t.state = TaskState.inProgress) →
        (systemGet w' 0).map (fun u => u.state)
          = some TaskState.canceled)
    ∧ (∀ e t, recOverlap.executionJobId = some e →
        systemGet wOverlap e = some t →
        (t.state = TaskState.pending ∨ t.state = TaskState.inProgress) →
        (systemGet w' e).map (fun u => u.state)
          = some TaskState.canceled) :=
  del_cancels_and_deletes wOverlap 0 recOverlap 0 rfl rfl

/-- C6. After loading the record, a tick checks the state of its own
scheduler task (the stored `pendingTickTaskId`): any state other than
`pending` or `inProgress` makes the tick raise the integrity error, which
propagates (is not swallowed). -/
theorem tick_integrity_check_raises (nd : String → Int → Int) (now : Int)
    (w : World) (j : Nat) (r : JobRecord) (sid : Nat) (t : Task)
    (h1 : dbGet w j = some r) (h2 : r.schedulerJobId = some sid)
    (h3 : systemGet w sid = some t)
    (h4 : t.state ≠ TaskState.pending)
    (h5 : t.state ≠ TaskState.inProgress) :
    rescheduler nd now w j
      = Except.error (CronError.badState t.state) := by
  have hc : (t.state != TaskState.pending &&
      t.state != TaskState.inProgress) = true := by
    cases hstate : t.state with
    | pending => exact absurd hstate h4
    | inProgress => exact absurd hstate h5
    | success => rfl
    | failed => rfl
    | canceled => rfl
  simp only [rescheduler, h1, h2, h3, hc, if_true]

/-- C6 witness: in `wBadState` the tick's own task is already `success`, so
the tick raises the integrity error. -/
theorem tick_integrity_check_raises_witness :
    rescheduler ndFix 0 wBadState 0
      = Except.error (CronError.badState TaskState.success) :=
  tick_integrity_check_raises ndFix 0 wBadState 0 recReg
    0 ⟨1000, TaskState.success, TaskTarget.rescheduler 0⟩
    rfl rfl rfl (by decide) (by decide)

/-- C7. `del` on a missing id fails with the job-not-found error and on an
unscheduled record with the not-scheduled error — in the model an error
result carries no successor world, mirroring that the code throws before
any cancellation or deletion; `delByName` fails with the job-not-found
error when no record has the name and otherwise delegates to `del`. -/
theorem del_error_cases (w : World) (j : Nat) (name : String) :
    (dbGet w j = none → del w j = Except.error CronError.jobNotFound)
  ∧ (∀ r, dbGet w j = some r → r.schedulerJobId = none →
      del w j = Except.error CronError.notScheduled)
  ∧ (getByName w name = none →
      delByName w name = Except.error CronError.jobNotFound)
  ∧ (∀ p, getByName w name = some p → delByName w name = del w p.1) := by
  refine ⟨?_, ?_, ?_, ?_⟩
  · intro h
    simp only [del, h]
  · intro r h1 h2
    simp only [del, h1, h2]
  · intro h
    simp only [delByName, h]
  · intro p h
    simp only [delByName, h]

/-- C7 witness: all four cases at concrete worlds. -/
theorem del_error_cases_witness :
    del wUnscheduled 7 = Except.error CronError.jobNotFound
  ∧ del wUnscheduled 0 = Except.error CronError.notScheduled
  ∧ delByName wUnscheduled "y" = Except.error CronError.jobNotFound
  ∧ delByName wNamed "x" = del wNamed 0 :=
  ⟨(del_error_cases wUnscheduled 7 "y").1 rfl,
    (del_error_cases wUnscheduled 0 "y").2.1 recUnscheduled rfl rfl,
    (del_error_cases wUnscheduled 7 "y").2.2.1 rfl,
    (del_error_cases wNamed 7 "x").2.2.2 (0, recNamed) rfl⟩

/-- C8. Every completing tick arms exactly one new tick task addressed to
the rescheduler with the same job id — its id fresh — and patches the
record's `schedulerJobId` to that id, whether or not dispatch happened. -/
theorem tick_rearms_exactly_one (nd : String → Int → Int) (now : Int)
    (w w' : World) (j : Nat)
    (htf : TasksFresh w)
    (hrun : rescheduler nd now w j = Except.ok w') :
    ∃ nid r', dbGet w' j = some r' ∧ r'.schedulerJobId = some nid ∧
      systemGet w nid = none ∧
      (∃ t, systemGet w' nid = some t ∧ isTickFor j t = true) ∧
      countTicks w' j = countTicks w j + 1 := by
  obtain ⟨r, sid, sj, hg, hs, ht, hstate, hw'⟩ :=
    rescheduler_ok_inv nd now w w' j hrun
  cases hsr : stillRunningB w r with
  | true =>
    simp only [tickResult, hsr, if_true] at hw'
    subst hw'
    refine ⟨w.nextTaskId, { r with schedulerJobId := some w.nextTaskId },
      ?_, rfl, systemGet_fresh w htf, ?_, ?_⟩
    · rw [dbGet_patch]
      simp [dbGet_scheduleTask, hg]
    · refine ⟨⟨nextTimeOf nd r.schedule sj.scheduledTime,
        TaskState.pending, TaskTarget.rescheduler j⟩, ?_, ?_⟩
      · rw [systemGet_patch, systemGet_scheduleTask, systemGet_fresh w htf]
        simp
      · simp [isTickFor]
    · rw [countTicks_patch, countTicks_schedule_tick_self]
  | false =>
    simp only [tickResult, hsr, Bool.false_eq_true, if_false] at hw'
    subst hw'
    have htf1 : TasksFresh (scheduleTask w (now + 0)
        (TaskTarget.func r.functionName r.args)).1 :=
      tasksFresh_scheduleTask w _ _ htf
    refine ⟨(scheduleTask w (now + 0)
        (TaskTarget.func r.functionName r.args)).1.nextTaskId,
      { r with schedulerJobId := some (scheduleTask w (now + 0)
          (TaskTarget.func r.functionName r.args)).1.nextTaskId },
      ?_, rfl, ?_, ?_, ?_⟩
    · rw [dbGet_patch]
      simp [dbGet_scheduleTask, hg]
    · exact systemGet_fresh_ge w _ htf (by simp [scheduleTask])
    · refine ⟨⟨nextTimeOf nd r.schedule sj.scheduledTime,
        TaskState.pending, TaskTarget.rescheduler j⟩, ?_, ?_⟩
      · rw [systemGet_patch, systemGet_scheduleTask,
          systemGet_fresh _ htf1]
        simp
      · simp [isTickFor]
    · rw [countTicks_patch, countTicks_schedule_tick_self,
        countTicks_schedule_func]

/-- C8 witness: the tick of `wReg` arms exactly one new tick (task 2) and
patches `schedulerJobId` to it. -/
theorem tick_rearms_exactly_one_witness :
    ∃ nid r', dbGet wTicked 0 = some r' ∧ r'.schedulerJobId = some nid ∧
      systemGet wReg nid = none ∧
      (∃ t, systemGet wTicked nid = some t ∧ isTickFor 0 t = true) ∧
      countTicks wTicked 0 = countTicks wReg 0 + 1 :=
  tick_rearms_exactly_one ndFix 1000 wReg wTicked 0
    (by intro p hp
        simp only [wReg] at hp
        rcases List.mem_singleton.mp hp with rfl
        decide) rfl

/-- C9. Registration with the empty-string name can never raise the
duplicate-name error — the guard `if (name && ...)` skips the lookup for
the falsy empty string — so any number of jobs named `""` coexist, as the
two records of `wTwoEmptyNames` show. -/
theorem empty_name_never_duplicate :
    (∀ (cv : String → Bool) (nd : String → Int → Int) (now : Int)
      (w : World) (sch : Schedule) (fn : String)
      (args : Option (List (String × String))),
      isDuplicateNameErr (scheduleCron cv nd now w sch fn (some "") args)
        = false)
  ∧ scheduleCron cvAll ndFix 0 wEmptyName (Schedule.interval 1000) "g"
      (some "") none = Except.ok (wTwoEmptyNames, 1)
  ∧ (dbGet wTwoEmptyNames 0).map (fun r => r.name) = some (some "")
  ∧ (dbGet wTwoEmptyNames 1).map (fun r => r.name) = some (some "") := by
  refine ⟨?_, rfl, rfl, rfl⟩
  intro cv nd now w sch fn args
  simp only [scheduleCron, bne_self_eq_false, Bool.false_and,
    Bool.false_eq_true, if_false]
  split
  · rfl
  · split
    · rfl
    · cases sch <;> rfl

/-- C9 witness: a concrete instance of the universally quantified part. -/
theorem empty_name_never_duplicate_witness :
    isDuplicateNameErr (scheduleCron cvAll ndFix 0 wEmptyName
      (Schedule.interval 1000) "g" (some "") none) = false :=
  empty_name_never_duplicate.1 cvAll ndFix 0 wEmptyName
    (Schedule.interval 1000) "g" none

/-- C10. When the record's `executionJobId` is set but the scheduler system
table has no such task, the tick treats the previous dispatch as finished
and dispatches a new invocation of the target function immediately
(zero-delay) with the job's args. -/
theorem missing_dispatch_task_dispatches (nd : String → Int → Int)
    (now : Int) (w w' : World) (j e : Nat) (r : JobRecord)
    (htf : TasksFresh w)
    (h1 : dbGet w j = some r) (h2 : r.executionJobId = some e)
    (h3 : systemGet w e = none)
    (hrun : rescheduler nd now w j = Except.ok w') :
    countDispatches w' = countDispatches w + 1 ∧
    systemGet w' w.nextTaskId =
      some ⟨now + 0, TaskState.pending,
        TaskTarget.func r.functionName r.args⟩ := by
  obtain ⟨r0, sid, sj, hg, hs, ht, hstate, hw'⟩ :=
    rescheduler_ok_inv nd now w w' j hrun
  have hr : r0 = r := by
    have := h1.symm.trans hg
    exact (Option.some.inj this).symm
  subst hr
  have hstill : stillRunningB w r0 = false := by
    simp only [stillRunningB, h2, h3]
  simp only [tickResult, hstill, Bool.false_eq_true, if_false] at hw'
  subst hw'
  constructor
  · rw [countDispatches_patch, countDispatches_schedule_tick,
      countDispatches_schedule_func]
  · rw [systemGet_patch, systemGet_scheduleTask, systemGet_scheduleTask,
      systemGet_fresh w htf]
    simp

/-- C10 witness: in `wMissingExec` the recorded execution job 5 does not
exist, so the tick at wall clock 400 dispatches task 1. -/
theorem missing_dispatch_task_dispatches_witness :
    countDispatches wMissingExecTicked = countDispatches wMissingExec + 1 ∧
    systemGet wMissingExecTicked 1 =
      some ⟨400 + 0, TaskState.pending, TaskTarget.func "f" []⟩ :=
  missing_dispatch_task_dispatches ndFix 400 wMissingExec
    wMissingExecTicked 0 5 recMissingExec
    (by intro p hp
        simp only [wMissingExec] at hp
        rcases List.mem_singleton.mp hp with rfl
        decide) rfl rfl rfl rfl

end Cronvex
